import Mathlib

/-
Verification of the functional core of the Budget_Expense_Tracker repository
(src/app.py): a shallow embedding of the transaction ledger, recurring-rule
engine, budget comparison, forecast projector and storage adapter, followed by
theorems about the spec's claims.

Conventions of the embedding:
  * pandas DataFrames of a typed collection are Lean lists of records;
  * Python strings are Lean Strings, month keys are "YYYY-MM" strings exactly
    as produced by pandas `Series.dt.to_period("M").astype(str)`;
  * pandas `Period` values (freq "M") are represented by their absolute month
    number `n : Nat` with year `n / 12` and 1-based month `n % 12 + 1`, so the
    pandas `period + i` is plain `n + i`;
  * amounts are `Int` (the claims involve no rounding behaviour);
  * Python `datetime`/`Timestamp` values are `Ymd` records; a possibly-missing
    date cell (pandas `NaT`) is an `Option Ymd`;
  * functions that can raise return `Option`/`Except`.
-/

/-- A calendar date (the fields of a pandas Timestamp that this app uses). -/
structure Ymd where
  year : Nat
  month : Nat
  day : Nat
deriving DecidableEq, Repr

/- ===== Decimal rendering and parsing of month strings =====
   `str(pandas.Period(..., freq="M"))` renders as zero-padded "YYYY-MM". -/

/-- The ASCII digit character of `d` (for `d < 10`). -/
def digitCh (d : Nat) : Char := Char.ofNat (48 + d)

/-- Decimal digits of `n`, most significant first, via explicit fuel
(`natChars 0 = []`; the zero case is always reached under padding). -/
def natCharsAux : Nat → Nat → List Char
  | 0, _ => []
  | fuel + 1, n => if n = 0 then [] else natCharsAux fuel (n / 10) ++ [digitCh (n % 10)]

/-- Decimal digit characters of `n`, most significant first. -/
def natChars (n : Nat) : List Char := natCharsAux (n + 1) n

/-- Left-pad a character list with `c` up to length `len`. -/
def padLeft (c : Char) (len : Nat) (l : List Char) : List Char :=
  List.replicate (len - l.length) c ++ l

/-- The value of the digit character `c`. -/
def chVal (c : Char) : Nat := c.toNat - 48

/-- Numeric value of a big-endian digit-character list. -/
def chsToNat (l : List Char) : Nat := l.foldl (fun a c => a * 10 + chVal c) 0

/-- Whether `c` is an ASCII decimal digit. -/
def isDigitCh (c : Char) : Bool := 48 ≤ c.toNat && c.toNat ≤ 57

/-- The "YYYY-MM" rendering of the absolute month `n` (year `n / 12`,
month `n % 12 + 1`), as pandas renders `str(Period)` for freq "M". -/
def fmtYm (n : Nat) : String :=
  String.mk (padLeft '0' 4 (natChars (n / 12)) ++ '-' :: padLeft '0' 2 (natChars (n % 12 + 1)))

/-- Split a character list at every `'-'` (the shape analysis done by the
date/period parsers). -/
def splitDash : List Char → List (List Char)
  | [] => [[]]
  | c :: rest =>
    if c = '-' then [] :: splitDash rest
    else
      match splitDash rest with
      | [] => [[c]]
      | seg :: segs => (c :: seg) :: segs

/-- Parse a nonempty all-digit character list. -/
def parseNatChars (l : List Char) : Option Nat :=
  if !l.isEmpty && l.all isDigitCh then some (chsToNat l) else none

/-- Parse a "YYYY-MM" string to an absolute month number, as
`pandas.Period(s, freq="M")` does for the month strings this app produces
(failure on anything else; pandas would raise). -/
def parseYm (s : String) : Option Nat :=
  match splitDash s.data with
  | [ys, ms] =>
    match parseNatChars ys, parseNatChars ms with
    | some y, some m => if 1 ≤ m && m ≤ 12 then some (y * 12 + (m - 1)) else none
    | _, _ => none
  | _ => none

/-- Parse a "YYYY-MM-DD" string to a date, as `pandas.to_datetime` does for
the first-of-month strings the apply step feeds it. -/
def parseDateYmd (s : String) : Option Ymd :=
  match splitDash s.data with
  | [ys, ms, ds] =>
    match parseNatChars ys, parseNatChars ms, parseNatChars ds with
    | some y, some m, some d =>
      if 1 ≤ m && m ≤ 12 && 1 ≤ d && d ≤ 31 then some ⟨y, m, d⟩ else none
    | _, _, _ => none
  | _ => none

/-- The "YYYY-MM" month key of a date, as `Timestamp.to_period("M")` then
`astype(str)` derive it. -/
def monthStr (d : Ymd) : String := fmtYm (d.year * 12 + (d.month - 1))

/- ===== Lemmas about the decimal machinery ===== -/

theorem chVal_digitCh (d : Nat) (hd : d < 10) : chVal (digitCh d) = d := by
  interval_cases d <;> rfl

theorem isDigitCh_digitCh (d : Nat) (hd : d < 10) : isDigitCh (digitCh d) = true := by
  interval_cases d <;> rfl

theorem digitCh_ne_dash (d : Nat) (hd : d < 10) : digitCh d ≠ '-' := by
  interval_cases d <;> decide

theorem chsToNat_append (l : List Char) (c : Char) :
    chsToNat (l ++ [c]) = chsToNat l * 10 + chVal c := by
  simp [chsToNat, List.foldl_append]

theorem chsToNat_natCharsAux (fuel n : Nat) (h : n < fuel) :
    chsToNat (natCharsAux fuel n) = n := by
  induction fuel generalizing n with
  | zero => omega
  | succ fuel ih =>
    by_cases h0 : n = 0
    · simp [natCharsAux, h0, chsToNat]
    · have hdiv : n / 10 < fuel := by
        have : n / 10 < n := Nat.div_lt_self (Nat.pos_of_ne_zero h0) (by omega)
        omega
      simp only [natCharsAux, h0, if_false]
      rw [chsToNat_append, ih _ hdiv, chVal_digitCh _ (Nat.mod_lt _ (by omega))]
      omega

theorem chsToNat_natChars (n : Nat) : chsToNat (natChars n) = n :=
  chsToNat_natCharsAux (n + 1) n (by omega)

theorem chsToNat_replicate_zero_append (k : Nat) (l : List Char) :
    chsToNat (List.replicate k '0' ++ l) = chsToNat l := by
  induction k with
  | zero => rfl
  | succ k ih =>
    have : List.replicate (k + 1) '0' ++ l = '0' :: (List.replicate k '0' ++ l) := by
      simp [List.replicate_succ]
    rw [this]
    simpa [chsToNat, chVal] using ih

theorem chsToNat_padLeft (k : Nat) (l : List Char) :
    chsToNat (padLeft '0' k l) = chsToNat l :=
  chsToNat_replicate_zero_append _ _

theorem mem_natCharsAux_digit (fuel n : Nat) (c : Char) (hc : c ∈ natCharsAux fuel n) :
    isDigitCh c = true ∧ c ≠ '-' := by
  induction fuel generalizing n with
  | zero => simp [natCharsAux] at hc
  | succ fuel ih =>
    by_cases h0 : n = 0
    · simp [natCharsAux, h0] at hc
    · simp only [natCharsAux, h0, if_false, List.mem_append, List.mem_singleton] at hc
      rcases hc with hc | hc
      · exact ih _ hc
      · subst hc
        exact ⟨isDigitCh_digitCh _ (Nat.mod_lt _ (by omega)),
               digitCh_ne_dash _ (Nat.mod_lt _ (by omega))⟩

theorem mem_padLeft_natChars (k n : Nat) (c : Char)
    (hc : c ∈ padLeft '0' k (natChars n)) : isDigitCh c = true ∧ c ≠ '-' := by
  simp only [padLeft, List.mem_append, List.mem_replicate] at hc
  rcases hc with ⟨-, hc⟩ | hc
  · subst hc; exact ⟨rfl, by decide⟩
  · exact mem_natCharsAux_digit _ _ _ hc

theorem padLeft_ne_nil (c : Char) (k : Nat) (hk : 0 < k) (l : List Char) :
    padLeft c k l ≠ [] := by
  unfold padLeft
  cases l with
  | nil => simp [List.replicate_eq_nil_iff]; omega
  | cons a t => simp

theorem splitDash_no_dash (l : List Char) (h : ∀ c ∈ l, c ≠ '-') :
    splitDash l = [l] := by
  induction l with
  | nil => rfl
  | cons c rest ih =>
    have hc : c ≠ '-' := h c (by simp)
    have hrest := ih (fun x hx => h x (by simp [hx]))
    simp [splitDash, hc, hrest]

theorem splitDash_append (a rest : List Char) (h : ∀ c ∈ a, c ≠ '-') :
    splitDash (a ++ '-' :: rest) = a :: splitDash rest := by
  induction a with
  | nil => simp [splitDash]
  | cons c t ih =>
    have hc : c ≠ '-' := h c (by simp)
    have ht := ih (fun x hx => h x (by simp [hx]))
    cases hs : splitDash rest with
    | nil => simp [splitDash, hc, ht, hs] at ht ⊢
    | cons s ss => simp [splitDash, hc, ht, hs]

theorem parseNatChars_padLeft_natChars (k n : Nat) (hk : 0 < k) :
    parseNatChars (padLeft '0' k (natChars n)) = some n := by
  have hne := padLeft_ne_nil '0' k hk (natChars n)
  have hall : (padLeft '0' k (natChars n)).all isDigitCh = true := by
    rw [List.all_eq_true]
    intro c hc
    exact (mem_padLeft_natChars k n c hc).1
  have hemp : (padLeft '0' k (natChars n)).isEmpty = false := by
    cases hl : padLeft '0' k (natChars n) with
    | nil => exact absurd hl hne
    | cons a t => rfl
  simp [parseNatChars, hemp, hall, chsToNat_padLeft, chsToNat_natChars]

theorem fmtYm_data (n : Nat) :
    (fmtYm n).data
      = padLeft '0' 4 (natChars (n / 12)) ++ '-' :: padLeft '0' 2 (natChars (n % 12 + 1)) :=
  rfl

theorem parseYm_fmtYm (n : Nat) : parseYm (fmtYm n) = some n := by
  have hy := fun c hc => (mem_padLeft_natChars 4 (n / 12) c hc).2
  have hm := fun c hc => (mem_padLeft_natChars 2 (n % 12 + 1) c hc).2
  have hsplit : splitDash (fmtYm n).data
      = [padLeft '0' 4 (natChars (n / 12)), padLeft '0' 2 (natChars (n % 12 + 1))] := by
    rw [fmtYm_data, splitDash_append _ _ hy, splitDash_no_dash _ hm]
  have h1 := parseNatChars_padLeft_natChars 4 (n / 12) (by omega)
  have h2 := parseNatChars_padLeft_natChars 2 (n % 12 + 1) (by omega)
  have hm12 : n % 12 + 1 ≤ 12 := by omega
  simp only [parseYm, hsplit, h1, h2]
  have : (1 ≤ n % 12 + 1 && n % 12 + 1 ≤ 12) = true := by
    simp; omega
  rw [this]
  simp
  omega

theorem fmtYm_inj {a b : Nat} (h : fmtYm a = fmtYm b) : a = b := by
  have := congrArg parseYm h
  rw [parseYm_fmtYm, parseYm_fmtYm] at this
  exact Option.some.inj this

theorem string_append_data (l r : List Char) :
    (String.mk l ++ String.mk r).data = l ++ r := rfl

theorem parseDateYmd_fmtYm_first (n : Nat) :
    parseDateYmd (fmtYm n ++ "-01") = some ⟨n / 12, n % 12 + 1, 1⟩ := by
  have hy := fun c hc => (mem_padLeft_natChars 4 (n / 12) c hc).2
  have hm := fun c hc => (mem_padLeft_natChars 2 (n % 12 + 1) c hc).2
  have hdata : (fmtYm n ++ "-01").data
      = padLeft '0' 4 (natChars (n / 12))
          ++ '-' :: (padLeft '0' 2 (natChars (n % 12 + 1)) ++ '-' :: ['0', '1']) := by
    have : (fmtYm n ++ "-01").data = (fmtYm n).data ++ ['-', '0', '1'] := rfl
    rw [this, fmtYm_data]
    simp
  have hsplit : splitDash (fmtYm n ++ "-01").data
      = [padLeft '0' 4 (natChars (n / 12)), padLeft '0' 2 (natChars (n % 12 + 1)),
         ['0', '1']] := by
    rw [hdata, splitDash_append _ _ hy, splitDash_append _ _ hm,
        splitDash_no_dash ['0', '1'] (by decide)]
  have h1 := parseNatChars_padLeft_natChars 4 (n / 12) (by omega)
  have h2 := parseNatChars_padLeft_natChars 2 (n % 12 + 1) (by omega)
  have h3 : parseNatChars ['0', '1'] = some 1 := by decide
  simp only [parseDateYmd, hsplit, h1, h2, h3]
  have : (1 ≤ n % 12 + 1 && n % 12 + 1 ≤ 12 && 1 ≤ 1 && 1 ≤ 31) = true := by
    simp; omega
  rw [this]
  simp

/- ===== Data model (src/app.py, typed collections) ===== -/

/-- A record of the stored "Transactions" sheet: columns Date, Type, Name,
Category, Amount (`add_transaction` writes exactly these, src/app.py:48-57).
`date` is an `Option` because an Excel Date cell can be blank (pandas NaN/NaT);
`ttype`/`name`/`category`/`amount` stand for the Type/Name/Category/Amount
columns. -/
structure StoredTx where
  date : Option Ymd
  ttype : String
  name : String
  category : String
  amount : Int
deriving DecidableEq, Repr

/-- A transaction as returned by `load_transactions_with_month`
(src/app.py:59-71): the stored columns plus the derived Month string. -/
structure Tx where
  date : Option Ymd
  ttype : String
  name : String
  category : String
  amount : Int
  month : String
deriving DecidableEq, Repr

/-- A row of the "RecurringRules" sheet: Name, Type, Category, Amount, Active
(src/app.py:157-158). -/
structure Rule where
  name : String
  ttype : String
  category : String
  amount : Int
  active : Bool
deriving DecidableEq, Repr

/-- A row of the "Budgets" sheet: Month, Category, Budget (src/app.py:220-221). -/
structure BudgetRow where
  month : String
  category : String
  budget : Int
deriving DecidableEq, Repr

/-- A preview row built by the apply-recurring section (src/app.py:274-280):
its `date` is the string `f"{target_month}-01"`. -/
structure PreviewRow where
  date : String
  ttype : String
  name : String
  category : String
  amount : Int
deriving DecidableEq, Repr

/-- A forecast row (src/app.py:102-108). -/
structure FRow where
  month : String
  ttype : String
  name : String
  category : String
  amount : Int
deriving DecidableEq, Repr

/-- A row of the budget-vs-actual comparison frame (src/app.py:246-247):
the merge of a month's budget rows with the per-category expense sums,
`amount` being the (NaN-filled) actual and `variance = budget - amount`. -/
structure CompRow where
  month : String
  category : String
  budget : Int
  amount : Int
  variance : Int
deriving DecidableEq, Repr

/- ===== Transaction ledger (src/app.py:48-71) ===== -/

/-- `add_transaction` (src/app.py:48-57): net effect on the stored
Transactions collection is appending one row with the given values. -/
def add_transaction (df : List StoredTx) (date : Ymd) (ttype name category : String)
    (amount : Int) : List StoredTx :=
  df ++ [⟨some date, ttype, name, category, amount⟩]

/-- The Transactions sheet as loaded: `hasDate` is whether the "Date" column
is present among the sheet's columns (`"Date" not in df.columns`,
src/app.py:65). -/
structure TxFrame where
  hasDate : Bool
  rows : List StoredTx
deriving DecidableEq, Repr

/-- `load_transactions_with_month` (src/app.py:59-71): returns the frame
unchanged when empty; substitutes `today` for every row's date when the whole
Date column is absent; then derives Month from each row's date
(`to_period("M").astype(str)`; a missing date is pandas `NaT`, whose
`astype(str)` rendering is the string "NaT"). -/
def load_transactions_with_month (df : TxFrame) (today : Ymd) : List Tx :=
  if df.rows.isEmpty then []
  else
    (if df.hasDate then df.rows else df.rows.map (fun r => { r with date := some today })).map
      (fun r =>
        { date := r.date, ttype := r.ttype, name := r.name, category := r.category,
          amount := r.amount,
          month := match r.date with | some d => monthStr d | none => "NaT" })

/- ===== Recurring engine (src/app.py:77-84, 267-291) ===== -/

/-- `get_existing_recurring_keys` (src/app.py:77-84): the (Month, Name, Type)
triples of the transactions whose Month equals the target month (the Python
`set` is modelled as a list; only membership is ever used). -/
def get_existing_recurring_keys (txs : List Tx) (target_month : String) :
    List (String × String × String) :=
  (txs.filter (fun t => t.month == target_month)).map (fun t => (t.month, t.name, t.ttype))

/-- The body of the preview loop (src/app.py:270-280) for one rule: an active
rule whose key `(target_month, Name, Type)` is not among the existing keys
contributes one preview row with Date `f"{target_month}-01"`; any other rule
contributes nothing. -/
def previewRowOfRule (target_month : String) (keys : List (String × String × String))
    (r : Rule) : Option PreviewRow :=
  if r.active then
    if (target_month, r.name, r.ttype) ∈ keys then none
    else some ⟨target_month ++ "-01", r.ttype, r.name, r.category, r.amount⟩
  else none

/-- The whole preview loop (src/app.py:268-280). -/
def preview_rows (rules : List Rule) (target_month : String)
    (keys : List (String × String × String)) : List PreviewRow :=
  rules.filterMap (previewRowOfRule target_month keys)

/-- The apply loop (src/app.py:288-291): for each preview row, parse its date
string with `pd.to_datetime` (which raises on a malformed string, hence the
`Option`) and `add_transaction` it. -/
def apply_preview (df : List StoredTx) : List PreviewRow → Option (List StoredTx)
  | [] => some df
  | row :: rest =>
    match parseDateYmd row.date with
    | none => none
    | some d => apply_preview (add_transaction df d row.ttype row.name row.category row.amount) rest

/- ===== Forecast engine (src/app.py:90-110, 306-315) ===== -/

/-- The inner loop body of `generate_forecast` (src/app.py:100-108) for one
rule and one future-month string. -/
def forecastRowOfRule (future_month : String) (r : Rule) : Option FRow :=
  if r.active then some ⟨future_month, r.ttype, r.name, r.category, r.amount⟩ else none

/-- Python's `<` on strings: lexicographic comparison by code point. -/
def strLtChars : List Char → List Char → Bool
  | [], [] => false
  | [], _ :: _ => true
  | _ :: _, [] => false
  | a :: as, b :: bs =>
    if a.toNat < b.toNat then true
    else if b.toNat < a.toNat then false
    else strLtChars as bs

/-- `max(transactions_df["Month"])` (src/app.py:94): the lexicographically
largest Month string ("" as the fold base; the caller guarantees the list is
nonempty, and every month string exceeds ""). -/
def maxMonth (txs : List Tx) : String :=
  txs.foldl (fun acc t => if strLtChars acc.data t.month.data then t.month else acc) ""

/-- `generate_forecast` (src/app.py:90-110): empty inputs yield an empty
frame; otherwise the max Month string is parsed by `pd.Period` (raising -
`none` - if unparsable) and every active rule emits one row per future month
`last_month + i`, `i = 1..months_ahead`, outer loop over `i`. -/
def generate_forecast (txs : List Tx) (rules : List Rule) (months_ahead : Nat) :
    Option (List FRow) :=
  if txs.isEmpty || rules.isEmpty then some []
  else
    match parseYm (maxMonth txs) with
    | none => none
    | some last_month =>
      some (((List.range' 1 months_ahead).map
        (fun i => rules.filterMap (forecastRowOfRule (fmtYm (last_month + i))))).flatten)

/-- Whether the pivoted forecast summary has a column for type `ty`
(`unstack` creates a column per Type value present in the frame). -/
def hasTypeCol (rows : List FRow) (ty : String) : Bool :=
  rows.any (fun r => r.ttype == ty)

/-- The (Month, Type) group sum of the forecast summary (src/app.py:306-311):
sum of Amount over the rows of month `m` and type `ty` (0 when the group is
empty, which is what `unstack(fill_value=0)` puts there). -/
def monthTypeSum (rows : List FRow) (m ty : String) : Int :=
  ((rows.filter (fun r => r.month == m && r.ttype == ty)).map (fun r => r.amount)).sum

/-- The "Projected Balance" column (src/app.py:313-315): `Income - Expense`
where `forecast_summary.get(col, 0)` yields the scalar 0 when the whole
column is absent, and the fill-value 0 for months with no rows of that type. -/
def projected_balance (rows : List FRow) (m : String) : Int :=
  (if hasTypeCol rows "Income" then monthTypeSum rows m "Income" else 0)
    - (if hasTypeCol rows "Expense" then monthTypeSum rows m "Expense" else 0)

/- ===== Budget comparison (src/app.py:238-250) ===== -/

/-- The per-category sums of a month's expense transactions
(`expense_tx.groupby("Category")["Amount"].sum().reset_index()`,
src/app.py:244, with `expense_tx` the selected month's Expense rows,
src/app.py:185-187): one pair per distinct category. -/
def actuals (txs : List Tx) (m : String) : List (String × Int) :=
  let etx := txs.filter (fun t => t.month == m && t.ttype == "Expense")
  (etx.map (fun t => t.category)).dedup.map
    (fun c => (c, ((etx.filter (fun t => t.category == c)).map (fun t => t.amount)).sum))

/-- The budget-vs-actual frame (src/app.py:241-247): budgets of the selected
month, left-merged with `actuals` on Category, NaN actuals filled with 0,
and `Variance = Budget - Amount`. -/
def comparison (budgets : List BudgetRow) (txs : List Tx) (m : String) : List CompRow :=
  (budgets.filter (fun b => b.month == m)).map (fun b =>
    let a := match (actuals txs m).find? (fun p => p.1 == b.category) with
      | some p => p.2
      | none => 0
    ⟨b.month, b.category, b.budget, a, b.budget - a⟩)

/-- The per-category expense sum of a month (the value the comparison's
Amount column should carry according to the spec). -/
def expenseSum (txs : List Tx) (m c : String) : Int :=
  ((txs.filter (fun t => t.month == m && t.ttype == "Expense" && t.category == c)).map
    (fun t => t.amount)).sum

/- ===== Storage adapter (src/app.py:19-42) ===== -/

/-- The class of a raised Python exception, as far as `load_data`'s
`except ValueError` handler distinguishes them: `valueError` covers
`ValueError` (what `pd.read_excel` raises for a missing sheet, and what
its format sniffing raises for an unrecognizable file); `otherError`
covers everything else (e.g. `zipfile.BadZipFile` from openpyxl on a
truncated workbook, which is not a `ValueError` subclass). -/
inductive PyErrClass where
  | valueError
  | otherError
deriving DecidableEq, Repr

/-- A cell value as pandas holds it in a DataFrame. -/
inductive CellValue where
  | boolVal (v : Bool)
  | numVal (v : Int)
  | strVal (v : String)
  | dateVal (v : Ymd)
deriving DecidableEq, Repr

/-- A cell as openpyxl stores it in a worksheet; the constructors mirror the
Excel cell types openpyxl maps Python values to. -/
inductive ExcelCell where
  | boolCell (v : Bool)
  | numCell (v : Int)
  | strCell (v : String)
  | dateCell (v : Ymd)
deriving DecidableEq, Repr

/-- A raw DataFrame: column names and rows of cell values. -/
structure Df where
  cols : List String
  rows : List (List CellValue)
deriving DecidableEq, Repr

/-- The empty `pd.DataFrame()`. -/
def emptyDf : Df := ⟨[], []⟩

/-- A worksheet: the cells `DataFrame.to_excel(index=False)` writes, a header
row followed by the data rows. -/
abbrev Worksheet : Type := List (List ExcelCell)

/-- The monthly workbook file on disk: absent (first use), present but not
loadable as a workbook (reading raises `err`), or a loadable workbook holding
named sheets. -/
inductive WorkbookFile where
  | absent
  | malformed (err : PyErrClass)
  | book (sheets : List (String × Worksheet))
deriving DecidableEq, Repr

/-- How openpyxl writes one pandas cell value, and `decodeCell` how pandas
reads the Excel cell back: the type mapping is bijective for the value kinds
this app stores (bool, number, string, datetime). -/
def encodeCell : CellValue → ExcelCell
  | .boolVal v => .boolCell v
  | .numVal v => .numCell v
  | .strVal v => .strCell v
  | .dateVal v => .dateCell v

/-- Reading an Excel cell back into a pandas value. -/
def decodeCell : ExcelCell → CellValue
  | .boolCell v => .boolVal v
  | .numCell v => .numVal v
  | .strCell v => .strVal v
  | .dateCell v => .dateVal v

/-- The header string of a cell (headers written by `to_excel` are strings). -/
def headerStr : ExcelCell → String
  | .strCell s => s
  | _ => ""

/-- `df.to_excel(writer, sheet_name=..., index=False)`: header row of the
column names, then the encoded data rows. -/
def writeDf (df : Df) : Worksheet :=
  (df.cols.map ExcelCell.strCell) :: df.rows.map (fun row => row.map encodeCell)

/-- `pd.read_excel` of one worksheet: first row as column names, the rest as
data. -/
def readSheet (sh : Worksheet) : Df :=
  match sh with
  | [] => emptyDf
  | header :: dataRows => ⟨header.map headerStr, dataRows.map (fun row => row.map decodeCell)⟩

/-- `load_data` (src/app.py:23-32): empty frame when the file does not exist;
otherwise `pd.read_excel(filename, sheet_name=...)` under `except ValueError`,
so a missing sheet (ValueError) and a ValueError-classed parse failure give an
empty frame, while any other exception class propagates. -/
def load_data (file : WorkbookFile) (sheet_name : String) : Except PyErrClass Df :=
  match file with
  | .absent => .ok emptyDf
  | .malformed err => if err = .valueError then .ok emptyDf else .error err
  | .book sheets =>
    match sheets.find? (fun p => p.1 == sheet_name) with
    | none => .ok emptyDf
    | some p => .ok (readSheet p.2)

/-- Replace the named sheet in a sheet list, or append it
(`if_sheet_exists="replace"`). -/
def setSheet (sheets : List (String × Worksheet)) (name : String) (sh : Worksheet) :
    List (String × Worksheet) :=
  if sheets.any (fun p => p.1 == name) then
    sheets.map (fun p => if p.1 == name then (name, sh) else p)
  else sheets ++ [(name, sh)]

/-- `save_data` (src/app.py:34-42): a fresh workbook with the one sheet when
the file does not exist; otherwise an append-mode `ExcelWriter` that replaces
the named sheet (and raises while opening a file that is not a loadable
workbook). -/
def save_data (file : WorkbookFile) (df : Df) (sheet_name : String) :
    Except PyErrClass WorkbookFile :=
  match file with
  | .absent => .ok (.book [(sheet_name, writeDf df)])
  | .malformed err => .error err
  | .book sheets => .ok (.book (setSheet sheets sheet_name (writeDf df)))

/- ===== Helper lemmas ===== -/

theorem mem_existing_keys_iff (txs : List Tx) (tm nm ty : String) :
    (tm, nm, ty) ∈ get_existing_recurring_keys txs tm
      ↔ ∃ t ∈ txs, t.month = tm ∧ t.name = nm ∧ t.ttype = ty := by
  simp only [get_existing_recurring_keys, List.mem_map, List.mem_filter, beq_iff_eq]
  constructor
  · rintro ⟨t, ⟨ht, hm⟩, heq⟩
    obtain ⟨h1, h2, h3⟩ : t.month = tm ∧ t.name = nm ∧ t.ttype = ty := by
      simpa [Prod.ext_iff] using heq
    exact ⟨t, ht, h1, h2, h3⟩
  · rintro ⟨t, ht, hm, hn, hty⟩
    exact ⟨t, ⟨ht, hm⟩, by simp [hm, hn, hty]⟩

/-- C1: recurring-apply deduplication. For every transaction list, target
month (any well-formed "YYYY-MM" string `fmtYm p`) and active rule, the
preview loop body keeps the rule exactly when no transaction of the target
month shares its Name and Type; consequently applying the preview for that
single rule either appends nothing (a matching transaction exists) or appends
exactly one transaction dated the first day of the target month. -/
theorem recurring_apply_dedup (txs : List Tx) (p : Nat) (r : Rule) (df : List StoredTx)
    (hact : r.active = true) :
    (previewRowOfRule (fmtYm p) (get_existing_recurring_keys txs (fmtYm p)) r
        = if ∃ t ∈ txs, t.month = fmtYm p ∧ t.name = r.name ∧ t.ttype = r.ttype
          then none
          else some ⟨fmtYm p ++ "-01", r.ttype, r.name, r.category, r.amount⟩)
    ∧ apply_preview df (preview_rows [r] (fmtYm p) (get_existing_recurring_keys txs (fmtYm p)))
        = some (if ∃ t ∈ txs, t.month = fmtYm p ∧ t.name = r.name ∧ t.ttype = r.ttype
                then df
                else df ++ [⟨some ⟨p / 12, p % 12 + 1, 1⟩, r.ttype, r.name, r.category, r.amount⟩]) := by
  have hkey := mem_existing_keys_iff txs (fmtYm p) r.name r.ttype
  by_cases hex : ∃ t ∈ txs, t.month = fmtYm p ∧ t.name = r.name ∧ t.ttype = r.ttype
  · have hmem : (fmtYm p, r.name, r.ttype) ∈ get_existing_recurring_keys txs (fmtYm p) :=
      hkey.mpr hex
    have h1 : previewRowOfRule (fmtYm p) (get_existing_recurring_keys txs (fmtYm p)) r = none := by
      simp [previewRowOfRule, hact, hmem]
    refine ⟨by simp [h1, hex], ?_⟩
    simp [preview_rows, h1, hex, apply_preview]
  · have hmem : (fmtYm p, r.name, r.ttype) ∉ get_existing_recurring_keys txs (fmtYm p) :=
      fun h => hex (hkey.mp h)
    have h1 : previewRowOfRule (fmtYm p) (get_existing_recurring_keys txs (fmtYm p)) r
        = some ⟨fmtYm p ++ "-01", r.ttype, r.name, r.category, r.amount⟩ := by
      simp [previewRowOfRule, hact, hmem]
    refine ⟨by simp [h1, hex], ?_⟩
    simp only [preview_rows, List.filterMap_cons, h1, List.filterMap_nil]
    simp [apply_preview, parseDateYmd_fmtYm_first, add_transaction, hex]

/-- Concrete scenario: a June-2024 Rent expense already recorded. -/
def rentTx : Tx := ⟨some ⟨2024, 6, 3⟩, "Expense", "Rent", "Housing", 1000, "2024-06"⟩

/-- A recurring rule matching `rentTx` on (Name, Type). -/
def rentRule : Rule := ⟨"Rent", "Expense", "Housing", 1000, true⟩

/-- A recurring rule with no matching June-2024 transaction. -/
def internetRule : Rule := ⟨"Internet", "Expense", "Utilities", 60, true⟩

theorem recurring_apply_dedup_witness :
    rentRule.active = true ∧ internetRule.active = true
    ∧ ((previewRowOfRule (fmtYm 24293) (get_existing_recurring_keys [rentTx] (fmtYm 24293)) rentRule
          = if ∃ t ∈ [rentTx], t.month = fmtYm 24293 ∧ t.name = rentRule.name ∧ t.ttype = rentRule.ttype
            then none
            else some ⟨fmtYm 24293 ++ "-01", rentRule.ttype, rentRule.name, rentRule.category, rentRule.amount⟩)
        ∧ apply_preview [] (preview_rows [rentRule] (fmtYm 24293) (get_existing_recurring_keys [rentTx] (fmtYm 24293)))
          = some (if ∃ t ∈ [rentTx], t.month = fmtYm 24293 ∧ t.name = rentRule.name ∧ t.ttype = rentRule.ttype
                  then []
                  else [] ++ [⟨some ⟨24293 / 12, 24293 % 12 + 1, 1⟩, rentRule.ttype, rentRule.name, rentRule.category, rentRule.amount⟩]))
    ∧ ((previewRowOfRule (fmtYm 24293) (get_existing_recurring_keys [rentTx] (fmtYm 24293)) internetRule
          = if ∃ t ∈ [rentTx], t.month = fmtYm 24293 ∧ t.name = internetRule.name ∧ t.ttype = internetRule.ttype
            then none
            else some ⟨fmtYm 24293 ++ "-01", internetRule.ttype, internetRule.name, internetRule.category, internetRule.amount⟩)
        ∧ apply_preview [] (preview_rows [internetRule] (fmtYm 24293) (get_existing_recurring_keys [rentTx] (fmtYm 24293)))
          = some (if ∃ t ∈ [rentTx], t.month = fmtYm 24293 ∧ t.name = internetRule.name ∧ t.ttype = internetRule.ttype
                  then []
                  else [] ++ [⟨some ⟨24293 / 12, 24293 % 12 + 1, 1⟩, internetRule.ttype, internetRule.name, internetRule.category, internetRule.amount⟩])) :=
  ⟨rfl, rfl, recurring_apply_dedup [rentTx] 24293 rentRule [] rfl,
    recurring_apply_dedup [rentTx] 24293 internetRule [] rfl⟩

theorem forecastRowOfRule_active (m : String) (r : Rule) (hr : r.active = true) :
    forecastRowOfRule m r = some ⟨m, r.ttype, r.name, r.category, r.amount⟩ := by
  simp [forecastRowOfRule, hr]

theorem month_of_mem_forecast_block (rules : List Rule) (m : String) (x : FRow)
    (hx : x ∈ rules.filterMap (forecastRowOfRule m)) : x.month = m := by
  rw [List.mem_filterMap] at hx
  obtain ⟨r, -, h⟩ := hx
  by_cases ha : r.active <;> simp [forecastRowOfRule, ha] at h
  rw [← h]

theorem frow_eq_iff (m : String) (q r : Rule) (hq : q.active = true) (hr : r.active = true) :
    (FRow.mk m q.ttype q.name q.category q.amount
      = FRow.mk m r.ttype r.name r.category r.amount) ↔ q = r := by
  obtain ⟨q1, q2, q3, q4, q5⟩ := q
  obtain ⟨r1, r2, r3, r4, r5⟩ := r
  simp_all [FRow.mk.injEq]
  tauto

theorem forecast_block_count (rules : List Rule) (m : String) (r : Rule)
    (hr : r.active = true) :
    (rules.filterMap (forecastRowOfRule m)).count ⟨m, r.ttype, r.name, r.category, r.amount⟩
      = (rules.filter (fun q => q.active)).count r := by
  induction rules with
  | nil => rfl
  | cons q qs ih =>
    by_cases ha : q.active
    · rw [List.filterMap_cons_some (forecastRowOfRule_active m q ha)]
      have hf : (q :: qs).filter (fun q => q.active) = q :: qs.filter (fun q => q.active) := by
        simp [List.filter_cons, ha]
      rw [hf, List.count_cons, List.count_cons, ih]
      have : (FRow.mk m q.ttype q.name q.category q.amount
          == FRow.mk m r.ttype r.name r.category r.amount) = (q == r) := by
        by_cases hqr : q = r
        · simp [hqr]
        · have : ¬(FRow.mk m q.ttype q.name q.category q.amount
              = FRow.mk m r.ttype r.name r.category r.amount) :=
            fun h => hqr ((frow_eq_iff m q r ha hr).mp h)
          simp [this, hqr]
      rw [this]
    · have hnone : forecastRowOfRule m q = none := by
        simp [forecastRowOfRule, ha]
      rw [List.filterMap_cons_none hnone]
      have hf : (q :: qs).filter (fun q => q.active) = qs.filter (fun q => q.active) := by
        simp [List.filter_cons, ha]
      rw [hf, ih]

theorem count_flatten_zero {α : Type} [DecidableEq α] (g : Nat → List α) (x : α)
    (is : List Nat) (h : ∀ j ∈ is, (g j).count x = 0) :
    ((is.map g).flatten).count x = 0 := by
  induction is with
  | nil => rfl
  | cons i is ih =>
    simp only [List.map_cons, List.flatten_cons, List.count_append]
    rw [h i (by simp), ih (fun j hj => h j (by simp [hj]))]

theorem count_flatten_single {α : Type} [DecidableEq α] (g : Nat → List α) (x : α)
    (is : List Nat) (hnd : is.Nodup) (i0 : Nat) (hi0 : i0 ∈ is)
    (hz : ∀ j ∈ is, j ≠ i0 → (g j).count x = 0) :
    ((is.map g).flatten).count x = (g i0).count x := by
  induction is with
  | nil => simp at hi0
  | cons i is ih =>
    simp only [List.map_cons, List.flatten_cons, List.count_append]
    rcases List.mem_cons.mp hi0 with h | h
    · subst h
      have : ∀ j ∈ is, (g j).count x = 0 := by
        intro j hj
        have hne : j ≠ i0 := by
          rintro rfl
          exact (List.nodup_cons.mp hnd).1 hj
        exact hz j (by simp [hj]) hne
      rw [count_flatten_zero g x is this]
      omega
    · have hii0 : i ≠ i0 := by
        rintro rfl
        exact (List.nodup_cons.mp hnd).1 h
      rw [hz i (by simp) hii0,
        ih (List.nodup_cons.mp hnd).2 h (fun j hj hne => hz j (by simp [hj]) hne)]
      omega

theorem monthTypeSum_of_no_col (rows : List FRow) (m ty : String)
    (h : hasTypeCol rows ty = false) : monthTypeSum rows m ty = 0 := by
  have hall : ∀ r ∈ rows, ¬(r.ttype == ty) = true := by
    simpa [hasTypeCol, List.any_eq_false] using h
  have hfil : rows.filter (fun r => r.month == m && r.ttype == ty) = [] := by
    rw [List.filter_eq_nil_iff]
    intro r hr
    simp only [Bool.and_eq_true, not_and]
    exact fun _ => hall r hr
  simp [monthTypeSum, hfil]

theorem projected_balance_eq (rows : List FRow) (m : String) :
    projected_balance rows m = monthTypeSum rows m "Income" - monthTypeSum rows m "Expense" := by
  unfold projected_balance
  by_cases h1 : hasTypeCol rows "Income" <;> by_cases h2 : hasTypeCol rows "Expense"
  · simp [h1, h2]
  · rw [Bool.not_eq_true] at h2
    simp [h1, h2, monthTypeSum_of_no_col rows m "Expense" h2]
  · rw [Bool.not_eq_true] at h1
    simp [h1, h2, monthTypeSum_of_no_col rows m "Income" h1]
  · rw [Bool.not_eq_true] at h1 h2
    simp [h1, h2, monthTypeSum_of_no_col rows m "Income" h1,
      monthTypeSum_of_no_col rows m "Expense" h2]

/-- C2: forecast generation. With nonempty transactions and rules and
`lastMonth` the (parsed) maximum Month string, every generated row's month is
`lastMonth + i` for some `i` in `1..months_ahead`; for each such `i` and each
active rule the forecast holds exactly one row per occurrence of the rule
(count 1 for a rule listed once), carrying the rule's Type, Name, Category and
Amount; and the summary's projected balance of any month is the month's
Income sum minus its Expense sum, an absent Income or Expense total counting
as 0. -/
theorem forecast_generation (txs : List Tx) (rules : List Rule) (ma lastMonth : Nat)
    (F : List FRow)
    (hparse : parseYm (maxMonth txs) = some lastMonth)
    (hF : generate_forecast txs rules ma = some F)
    (htx : txs ≠ []) (hrules : rules ≠ []) :
    (∀ row ∈ F, ∃ i, 1 ≤ i ∧ i ≤ ma ∧ row.month = fmtYm (lastMonth + i))
    ∧ (∀ i, 1 ≤ i → i ≤ ma → ∀ r : Rule, r.active = true →
        F.count ⟨fmtYm (lastMonth + i), r.ttype, r.name, r.category, r.amount⟩
          = (rules.filter (fun q => q.active)).count r)
    ∧ (∀ rows : List FRow, ∀ m, projected_balance rows m
          = monthTypeSum rows m "Income" - monthTypeSum rows m "Expense") := by
  have hc : (txs.isEmpty || rules.isEmpty) = false := by
    simp [List.isEmpty_iff, htx, hrules]
  unfold generate_forecast at hF
  rw [hc] at hF
  simp only [Bool.false_eq_true, if_false, hparse] at hF
  have hFeq : F = ((List.range' 1 ma).map
      (fun i => rules.filterMap (forecastRowOfRule (fmtYm (lastMonth + i))))).flatten :=
    (Option.some.inj hF).symm
  subst hFeq
  refine ⟨?_, ?_, fun rows m => projected_balance_eq rows m⟩
  · intro row hrow
    rw [List.mem_flatten] at hrow
    obtain ⟨block, hblock, hrowb⟩ := hrow
    rw [List.mem_map] at hblock
    obtain ⟨i, hi, hbeq⟩ := hblock
    rw [List.mem_range'_1] at hi
    refine ⟨i, hi.1, by omega, ?_⟩
    exact month_of_mem_forecast_block rules _ row (hbeq ▸ hrowb)
  · intro i h1 h2 r hr
    rw [count_flatten_single _ _ (List.range' 1 ma)
          (List.nodup_range' 1 ma 1 (by omega)) i (by rw [List.mem_range'_1]; omega)
          ?_]
    · exact forecast_block_count rules _ r hr
    · intro j hj hne
      rw [List.count_eq_zero]
      intro hmem
      have := month_of_mem_forecast_block rules _ _ hmem
      have : fmtYm (lastMonth + i) = fmtYm (lastMonth + j) := by
        rw [← this]
      have := fmtYm_inj this
      omega

/-- The spec's forecast example: an active Income 3000 rule. -/
def salaryRule : Rule := ⟨"Salary", "Income", "Job", 3000, true⟩

/-- The spec's forecast example: an active Expense 1200 rule. -/
def rentRule1200 : Rule := ⟨"Rent", "Expense", "Housing", 1200, true⟩

/-- The forecast frame of the spec's example (lastMonth "2024-06",
monthsAhead 2). -/
def fcstJun24 : List FRow :=
  [⟨"2024-07", "Income", "Salary", "Job", 3000⟩,
   ⟨"2024-07", "Expense", "Rent", "Housing", 1200⟩,
   ⟨"2024-08", "Income", "Salary", "Job", 3000⟩,
   ⟨"2024-08", "Expense", "Rent", "Housing", 1200⟩]

theorem forecast_generation_witness :
    parseYm (maxMonth [rentTx]) = some 24293
    ∧ generate_forecast [rentTx] [salaryRule, rentRule1200] 2 = some fcstJun24
    ∧ [rentTx] ≠ []
    ∧ [salaryRule, rentRule1200] ≠ []
    ∧ ((∀ row ∈ fcstJun24, ∃ i, 1 ≤ i ∧ i ≤ 2 ∧ row.month = fmtYm (24293 + i))
      ∧ (∀ i, 1 ≤ i → i ≤ 2 → ∀ r : Rule, r.active = true →
          fcstJun24.count ⟨fmtYm (24293 + i), r.ttype, r.name, r.category, r.amount⟩
            = ([salaryRule, rentRule1200].filter (fun q => q.active)).count r)
      ∧ (∀ rows : List FRow, ∀ m, projected_balance rows m
            = monthTypeSum rows m "Income" - monthTypeSum rows m "Expense"))
    ∧ projected_balance fcstJun24 "2024-07" = 1800
    ∧ projected_balance fcstJun24 "2024-08" = 1800 :=
  ⟨by decide, by decide, by decide, by decide,
    forecast_generation [rentTx] [salaryRule, rentRule1200] 2 24293 fcstJun24
      (by decide) (by decide) (by decide) (by decide),
    by decide, by decide⟩

theorem find?_map_key {β : Type} (f : String → β) (l : List String) (c : String)
    (hc : c ∈ l) :
    (l.map (fun k => (k, f k))).find? (fun p => p.1 == c) = some (c, f c) := by
  induction l with
  | nil => simp at hc
  | cons k ks ih =>
    by_cases hk : k = c
    · subst hk
      rw [List.map_cons, List.find?_cons_of_pos _ (by simp)]
    · rw [List.map_cons, List.find?_cons_of_neg _ (by simpa using hk)]
      exact ih (by rcases List.mem_cons.mp hc with h | h; exact absurd h.symm hk; exact h)

theorem expenseSum_filter (txs : List Tx) (m c : String) :
    ((((txs.filter (fun t => t.month == m && t.ttype == "Expense")).filter
        (fun t => t.category == c)).map (fun t => t.amount)).sum) = expenseSum txs m c := by
  rw [List.filter_filter]
  unfold expenseSum
  congr 1
  congr 1
  apply List.filter_congr
  intro t ht
  cases h1 : t.month == m <;> cases h2 : t.ttype == "Expense" <;>
    cases h3 : t.category == c <;> rfl

theorem expenseSum_of_no_match (txs : List Tx) (m c : String)
    (h : ¬∃ t ∈ txs, t.month = m ∧ t.ttype = "Expense" ∧ t.category = c) :
    expenseSum txs m c = 0 := by
  have hfil : txs.filter (fun t => t.month == m && t.ttype == "Expense" && t.category == c)
      = [] := by
    rw [List.filter_eq_nil_iff]
    intro t ht hp
    simp only [Bool.and_eq_true, beq_iff_eq] at hp
    exact h ⟨t, ht, hp.1.1, hp.1.2, hp.2⟩
  simp [expenseSum, hfil]

theorem actuals_find? (txs : List Tx) (m c : String) :
    (actuals txs m).find? (fun p => p.1 == c)
      = if ∃ t ∈ txs, t.month = m ∧ t.ttype = "Expense" ∧ t.category = c
        then some (c, expenseSum txs m c)
        else none := by
  have hmem : c ∈ ((txs.filter (fun t => t.month == m && t.ttype == "Expense")).map
        (fun t => t.category)).dedup
      ↔ ∃ t ∈ txs, t.month = m ∧ t.ttype = "Expense" ∧ t.category = c := by
    rw [List.mem_dedup, List.mem_map]
    constructor
    · rintro ⟨t, ht, hcat⟩
      rw [List.mem_filter] at ht
      simp only [Bool.and_eq_true, beq_iff_eq] at ht
      exact ⟨t, ht.1, ht.2.1, ht.2.2, hcat⟩
    · rintro ⟨t, ht, h1, h2, h3⟩
      exact ⟨t, List.mem_filter.mpr ⟨ht, by simp [h1, h2]⟩, h3⟩
  by_cases hex : ∃ t ∈ txs, t.month = m ∧ t.ttype = "Expense" ∧ t.category = c
  · rw [if_pos hex]
    unfold actuals
    rw [find?_map_key _ _ c (hmem.mpr hex), expenseSum_filter]
  · rw [if_neg hex]
    unfold actuals
    apply List.find?_eq_none.mpr
    intro p hp
    rw [List.mem_map] at hp
    obtain ⟨k, hk, hkeq⟩ := hp
    have : p.1 = k := by rw [← hkeq]
    rw [this]
    simp only [beq_iff_eq]
    rintro rfl
    exact hex (hmem.mp hk)

/-- C3: budget-vs-actual comparison. The comparison frame is exactly the
selected month's budget rows, each joined to the per-category expense sum of
that month (0 for a budgeted category with no matching spend) with variance
budget − actual; a budgeted category with no matching expense appears with
actual 0 and variance equal to its budget; a spend category with no budget
row of that month never appears; and every row's variance is its budget minus
its actual. -/
theorem budget_vs_actual (budgets : List BudgetRow) (txs : List Tx) (m : String) :
    comparison budgets txs m
      = (budgets.filter (fun b => b.month == m)).map (fun b =>
          ⟨b.month, b.category, b.budget, expenseSum txs m b.category,
            b.budget - expenseSum txs m b.category⟩)
    ∧ (∀ row ∈ comparison budgets txs m, row.variance = row.budget - row.amount)
    ∧ (∀ b ∈ budgets, b.month = m →
        (¬∃ t ∈ txs, t.month = m ∧ t.ttype = "Expense" ∧ t.category = b.category) →
        (⟨b.month, b.category, b.budget, 0, b.budget⟩ : CompRow) ∈ comparison budgets txs m)
    ∧ (∀ c : String, (∀ b ∈ budgets, b.month = m → b.category ≠ c) →
        ∀ row ∈ comparison budgets txs m, row.category ≠ c) := by
  have hchar : comparison budgets txs m
      = (budgets.filter (fun b => b.month == m)).map (fun b =>
          ⟨b.month, b.category, b.budget, expenseSum txs m b.category,
            b.budget - expenseSum txs m b.category⟩) := by
    unfold comparison
    apply List.map_congr_left
    intro b hb
    rw [actuals_find? txs m b.category]
    by_cases hex : ∃ t ∈ txs, t.month = m ∧ t.ttype = "Expense" ∧ t.category = b.category
    · rw [if_pos hex]
    · rw [if_neg hex, expenseSum_of_no_match txs m b.category hex]
  refine ⟨hchar, ?_, ?_, ?_⟩
  · intro row hrow
    rw [hchar, List.mem_map] at hrow
    obtain ⟨b, -, hbeq⟩ := hrow
    rw [← hbeq]
  · intro b hb hbm hex
    rw [hchar, List.mem_map]
    refine ⟨b, List.mem_filter.mpr ⟨hb, by simp [hbm]⟩, ?_⟩
    rw [expenseSum_of_no_match txs m b.category hex]
    simp
  · intro c hc row hrow
    rw [hchar, List.mem_map] at hrow
    obtain ⟨b, hb, hbeq⟩ := hrow
    rw [List.mem_filter] at hb
    have hbm : b.month = m := by simpa using hb.2
    have : row.category = b.category := by rw [← hbeq]
    rw [this]
    exact hc b hb.1 hbm

/-- The spec's comparison example: Groceries budgeted at 300 for 2024-06. -/
def groceriesBudget : BudgetRow := ⟨"2024-06", "Groceries", 300⟩

/-- A budgeted category with no matching spend. -/
def transportBudget : BudgetRow := ⟨"2024-06", "Transport", 100⟩

/-- The spec's comparison example: 275 actually spent on Groceries. -/
def groceriesTx : Tx := ⟨some ⟨2024, 6, 10⟩, "Expense", "Shop", "Groceries", 275, "2024-06"⟩

theorem budget_vs_actual_witness :
    (comparison [groceriesBudget, transportBudget] [groceriesTx] "2024-06"
      = ([groceriesBudget, transportBudget].filter (fun b => b.month == "2024-06")).map (fun b =>
          ⟨b.month, b.category, b.budget, expenseSum [groceriesTx] "2024-06" b.category,
            b.budget - expenseSum [groceriesTx] "2024-06" b.category⟩))
    ∧ comparison [groceriesBudget, transportBudget] [groceriesTx] "2024-06"
      = [⟨"2024-06", "Groceries", 300, 275, 25⟩, ⟨"2024-06", "Transport", 100, 0, 100⟩] :=
  ⟨(budget_vs_actual [groceriesBudget, transportBudget] [groceriesTx] "2024-06").1, by decide⟩

/-- C4, the claim as stated, refuted: a stored collection without a Date
column gets today's date substituted at load time (src/app.py:65-66), so
reloading the very same stored transactions on a later day yields a
different Month. -/
theorem month_stability_cex :
    (load_transactions_with_month ⟨false, [⟨none, "Income", "Pay", "Job", 100⟩]⟩
        ⟨2024, 6, 5⟩).map Tx.month
      ≠ (load_transactions_with_month ⟨false, [⟨none, "Income", "Pay", "Job", 100⟩]⟩
        ⟨2024, 7, 5⟩).map Tx.month := by decide

/-- C4 (amended): every loaded record that carries a date has Month exactly
the "YYYY-MM" string of that date; when the Date column is present the load
result does not depend on the current day, so any number of reloads of the
same stored transactions yield the same Month values; a record that received
the today-fallback instead gets the Month of the day the load ran, which is
what the counterexample shows can change between reloads. -/
theorem month_derivation (df : TxFrame) (today : Ymd) :
    (∀ t ∈ load_transactions_with_month df today,
        ∀ d : Ymd, t.date = some d → t.month = monthStr d)
    ∧ (df.hasDate = true → ∀ today2 : Ymd,
        load_transactions_with_month df today = load_transactions_with_month df today2)
    ∧ (df.hasDate = false → ∀ t ∈ load_transactions_with_month df today,
        t.date = some today ∧ t.month = monthStr today) := by
  refine ⟨?_, ?_, ?_⟩
  · intro t ht d hd
    unfold load_transactions_with_month at ht
    by_cases hemp : df.rows.isEmpty
    · simp [hemp] at ht
    · rw [if_neg hemp, List.mem_map] at ht
      obtain ⟨r, -, hr⟩ := ht
      rw [← hr] at hd ⊢
      simp only at hd ⊢
      rw [hd]
  · intro h today2
    unfold load_transactions_with_month
    rw [h]
    simp
  · intro h t ht
    unfold load_transactions_with_month at ht
    by_cases hemp : df.rows.isEmpty
    · simp [hemp] at ht
    · rw [if_neg hemp, h] at ht
      simp only [Bool.false_eq_true, if_false, List.map_map, List.mem_map] at ht
      obtain ⟨r, -, hr⟩ := ht
      rw [← hr]
      exact ⟨rfl, rfl⟩

theorem month_derivation_witness :
    ((∀ t ∈ load_transactions_with_month ⟨true, [⟨some ⟨2024, 6, 3⟩, "Expense", "Rent", "Housing", 1000⟩]⟩ ⟨2025, 1, 1⟩,
        ∀ d : Ymd, t.date = some d → t.month = monthStr d)
      ∧ ((⟨true, [⟨some ⟨2024, 6, 3⟩, "Expense", "Rent", "Housing", 1000⟩]⟩ : TxFrame).hasDate = true → ∀ today2 : Ymd,
          load_transactions_with_month ⟨true, [⟨some ⟨2024, 6, 3⟩, "Expense", "Rent", "Housing", 1000⟩]⟩ ⟨2025, 1, 1⟩
            = load_transactions_with_month ⟨true, [⟨some ⟨2024, 6, 3⟩, "Expense", "Rent", "Housing", 1000⟩]⟩ today2)
      ∧ ((⟨true, [⟨some ⟨2024, 6, 3⟩, "Expense", "Rent", "Housing", 1000⟩]⟩ : TxFrame).hasDate = false →
          ∀ t ∈ load_transactions_with_month ⟨true, [⟨some ⟨2024, 6, 3⟩, "Expense", "Rent", "Housing", 1000⟩]⟩ ⟨2025, 1, 1⟩,
            t.date = some ⟨2025, 1, 1⟩ ∧ t.month = monthStr ⟨2025, 1, 1⟩))
    ∧ (load_transactions_with_month ⟨true, [⟨some ⟨2024, 6, 3⟩, "Expense", "Rent", "Housing", 1000⟩]⟩ ⟨2025, 1, 1⟩).map Tx.month
        = ["2024-06"] :=
  ⟨month_derivation ⟨true, [⟨some ⟨2024, 6, 3⟩, "Expense", "Rent", "Housing", 1000⟩]⟩ ⟨2025, 1, 1⟩,
    by decide⟩

/-- C9, the claim as stated, refuted: the today-substitution happens only
when the whole Date column is absent (`"Date" not in df.columns`,
src/app.py:65); a record whose date cell is blank in a present Date column
is NOT given today's date - it keeps no date and its Month renders as "NaT". -/
theorem date_fallback_cex :
    load_transactions_with_month ⟨true, [⟨none, "Expense", "X", "C", 5⟩]⟩ ⟨2024, 6, 5⟩
      = [⟨none, "Expense", "X", "C", 5, "NaT"⟩]
    ∧ ¬(∀ t ∈ load_transactions_with_month ⟨true, [⟨none, "Expense", "X", "C", 5⟩]⟩ ⟨2024, 6, 5⟩,
        ∃ d : Ymd, t.date = some d) := by
  refine ⟨by decide, ?_⟩
  intro h
  obtain ⟨d, hd⟩ := h ⟨none, "Expense", "X", "C", 5, "NaT"⟩ (by decide)
  exact Option.noConfusion hd

/-- C9 (amended): the current-day fallback is column-level, not record-level.
When the loaded collection has no Date column at all, every returned record
carries today as its date and today's "YYYY-MM" as its Month; when the Date
column is present, every record keeps its stored (possibly absent) date, an
absent one yielding Month "NaT". -/
theorem date_fallback (df : TxFrame) (today : Ymd) :
    (df.hasDate = false → ∀ t ∈ load_transactions_with_month df today,
        t.date = some today ∧ t.month = monthStr today)
    ∧ (df.hasDate = true →
        load_transactions_with_month df today
          = df.rows.map (fun r =>
              ⟨r.date, r.ttype, r.name, r.category, r.amount,
                match r.date with | some d => monthStr d | none => "NaT"⟩)) := by
  refine ⟨fun h => (month_derivation df today).2.2 h, fun h => ?_⟩
  unfold load_transactions_with_month
  by_cases hemp : df.rows.isEmpty
  · rw [if_pos hemp]
    have : df.rows = [] := by simpa [List.isEmpty_iff] using hemp
    rw [this]
    rfl
  · rw [if_neg hemp, h]
    simp

theorem date_fallback_witness :
    (((⟨false, [⟨none, "Income", "Pay", "Job", 100⟩]⟩ : TxFrame).hasDate = false →
        ∀ t ∈ load_transactions_with_month ⟨false, [⟨none, "Income", "Pay", "Job", 100⟩]⟩ ⟨2024, 6, 5⟩,
          t.date = some ⟨2024, 6, 5⟩ ∧ t.month = monthStr ⟨2024, 6, 5⟩)
      ∧ ((⟨false, [⟨none, "Income", "Pay", "Job", 100⟩]⟩ : TxFrame).hasDate = true →
          load_transactions_with_month ⟨false, [⟨none, "Income", "Pay", "Job", 100⟩]⟩ ⟨2024, 6, 5⟩
            = ([⟨none, "Income", "Pay", "Job", 100⟩] : List StoredTx).map (fun r =>
                ⟨r.date, r.ttype, r.name, r.category, r.amount,
                  match r.date with | some d => monthStr d | none => "NaT"⟩)))
    ∧ (load_transactions_with_month ⟨false, [⟨none, "Income", "Pay", "Job", 100⟩]⟩ ⟨2024, 6, 5⟩).map Tx.month
        = ["2024-06"] :=
  ⟨date_fallback ⟨false, [⟨none, "Income", "Pay", "Job", 100⟩]⟩ ⟨2024, 6, 5⟩, by decide⟩

deriving instance DecidableEq for Except

/-- C5, the claim as stated, refuted: `load_data`'s handler catches only
`ValueError` (src/app.py:31), so a stored workbook whose parse failure
surfaces as any other exception class (e.g. `zipfile.BadZipFile` from a
truncated .xlsx, which subclasses `Exception`, not `ValueError`) makes
`load_data` raise instead of returning an empty frame. -/
theorem load_leniency_cex :
    load_data (.malformed .otherError) "Transactions" = .error .otherError
    ∧ PyErrClass.otherError ≠ PyErrClass.valueError := by decide

/-- C5 (amended): `load_data` returns an empty frame when the monthly file
does not exist, when the named sheet is missing from an intact workbook (a
ValueError, caught), and when parsing fails with a ValueError; a parse
failure of any other exception class propagates. -/
theorem load_leniency (sheets : List (String × Worksheet)) (s : String)
    (hmiss : sheets.find? (fun p => p.1 == s) = none) :
    load_data .absent s = .ok emptyDf
    ∧ load_data (.book sheets) s = .ok emptyDf
    ∧ load_data (.malformed .valueError) s = .ok emptyDf
    ∧ ∀ e : PyErrClass, e ≠ .valueError → load_data (.malformed e) s = .error e := by
  refine ⟨rfl, ?_, rfl, ?_⟩
  · simp [load_data, hmiss]
  · intro e he
    simp [load_data, he]

theorem load_leniency_witness :
    ([(("Other", []) : String × Worksheet)].find? (fun p => p.1 == "Transactions") = none)
    ∧ (load_data .absent "Transactions" = .ok emptyDf
      ∧ load_data (.book [("Other", [])]) "Transactions" = .ok emptyDf
      ∧ load_data (.malformed .valueError) "Transactions" = .ok emptyDf
      ∧ ∀ e : PyErrClass, e ≠ .valueError →
          load_data (.malformed e) "Transactions" = .error e) :=
  ⟨by decide, load_leniency [("Other", [])] "Transactions" (by decide)⟩

theorem decodeCell_encodeCell (v : CellValue) : decodeCell (encodeCell v) = v := by
  cases v <;> rfl

theorem readSheet_writeDf (df : Df) : readSheet (writeDf df) = df := by
  obtain ⟨cols, rows⟩ := df
  unfold writeDf readSheet
  simp only [List.map_map]
  congr 1
  · have : (headerStr ∘ ExcelCell.strCell) = id := by
      funext s
      rfl
    rw [this, List.map_id]
  · have h2 : rows.map ((fun row : List ExcelCell => row.map decodeCell)
          ∘ (fun row : List CellValue => row.map encodeCell))
        = rows.map id := by
      apply List.map_congr_left
      intro row _
      simp only [Function.comp_apply, List.map_map, id_eq]
      have : (decodeCell ∘ encodeCell) = id := funext decodeCell_encodeCell
      rw [this, List.map_id]
    rw [h2, List.map_id]

theorem find?_setSheet_replace (sheets : List (String × Worksheet)) (s : String)
    (sh : Worksheet) (h : sheets.any (fun p => p.1 == s) = true) :
    ((sheets.map (fun p => if p.1 == s then (s, sh) else p)).find?
      (fun p => p.1 == s)) = some (s, sh) := by
  induction sheets with
  | nil => simp at h
  | cons p ps ih =>
    by_cases hp : (p.1 == s) = true
    · rw [List.map_cons, if_pos hp, List.find?_cons_of_pos _ (by simp)]
    · rw [List.map_cons, if_neg hp, List.find?_cons_of_neg _ (by simpa using hp)]
      apply ih
      rw [List.any_cons, Bool.or_eq_true] at h
      rcases h with h1 | h1
      · exact absurd h1 hp
      · exact h1

theorem find?_setSheet (sheets : List (String × Worksheet)) (s : String) (sh : Worksheet) :
    (setSheet sheets s sh).find? (fun p => p.1 == s) = some (s, sh) := by
  unfold setSheet
  by_cases hany : sheets.any (fun p => p.1 == s) = true
  · rw [if_pos hany]
    exact find?_setSheet_replace sheets s sh hany
  · rw [if_neg hany, List.find?_append]
    have hnone : sheets.find? (fun p => p.1 == s) = none := by
      rw [List.find?_eq_none]
      intro p hp hps
      exact hany (List.any_eq_true.mpr ⟨p, hp, hps⟩)
    rw [hnone]
    simp

/-- C6: round-trip fidelity. If loading a collection succeeds with frame
`df`, then saving `df` back to the same sheet and loading again returns
exactly `df`: every date, amount, string and boolean cell value is unchanged
(openpyxl's value-type mapping is inverted exactly by the read). -/
theorem save_load_roundtrip (f : WorkbookFile) (s : String) (df : Df) (f2 : WorkbookFile)
    (hload : load_data f s = .ok df) (hsave : save_data f df s = .ok f2) :
    load_data f2 s = .ok df := by
  cases f with
  | absent =>
    have hf2 : f2 = .book [(s, writeDf df)] := by
      simpa [save_data] using hsave.symm
    subst hf2
    simp [load_data, readSheet_writeDf]
  | malformed e =>
    unfold save_data at hsave
    exact Except.noConfusion hsave
  | book sheets =>
    have hf2 : f2 = .book (setSheet sheets s (writeDf df)) := by
      simpa [save_data] using hsave.symm
    subst hf2
    simp [load_data, find?_setSheet, readSheet_writeDf]

/-- A workbook holding a RecurringRules sheet with a boolean Active cell. -/
def rulesBook : WorkbookFile :=
  .book [("RecurringRules",
    [[.strCell "Name", .strCell "Type", .strCell "Category", .strCell "Amount", .strCell "Active"],
     [.strCell "Rent", .strCell "Expense", .strCell "Housing", .numCell 1000, .boolCell true]])]

/-- The frame loaded from `rulesBook`, Active being boolean `true`. -/
def rulesDf : Df :=
  ⟨["Name", "Type", "Category", "Amount", "Active"],
   [[.strVal "Rent", .strVal "Expense", .strVal "Housing", .numVal 1000, .boolVal true]]⟩

theorem save_load_roundtrip_witness :
    load_data rulesBook "RecurringRules" = .ok rulesDf
    ∧ save_data rulesBook rulesDf "RecurringRules"
        = .ok (.book [("RecurringRules", writeDf rulesDf)])
    ∧ load_data (.book [("RecurringRules", writeDf rulesDf)]) "RecurringRules" = .ok rulesDf :=
  ⟨by decide, by decide,
    save_load_roundtrip rulesBook "RecurringRules" rulesDf
      (.book [("RecurringRules", writeDf rulesDf)]) (by decide) (by decide)⟩

/-- C7: inactive rules are excluded everywhere. A rule with Active = false
contributes nothing to the preview loop body and nothing to the forecast loop
body, and deleting it from the rule list changes neither the preview rows of
any target month nor the generated forecast (the latter provided the
remaining rule list is nonempty, since an empty rule list short-circuits
`generate_forecast`). -/
theorem inactive_rules_excluded (r : Rule) (hr : r.active = false) :
    (∀ (tm : String) (keys : List (String × String × String)),
        previewRowOfRule tm keys r = none)
    ∧ (∀ m : String, forecastRowOfRule m r = none)
    ∧ (∀ (l1 l2 : List Rule) (tm : String) (keys : List (String × String × String)),
        preview_rows (l1 ++ r :: l2) tm keys = preview_rows (l1 ++ l2) tm keys)
    ∧ (∀ (txs : List Tx) (l1 l2 : List Rule) (ma : Nat), l1 ++ l2 ≠ [] →
        generate_forecast txs (l1 ++ r :: l2) ma = generate_forecast txs (l1 ++ l2) ma) := by
  have hprev : ∀ (tm : String) (keys : List (String × String × String)),
      previewRowOfRule tm keys r = none := by
    intro tm keys
    simp [previewRowOfRule, hr]
  have hfore : ∀ m : String, forecastRowOfRule m r = none := by
    intro m
    simp [forecastRowOfRule, hr]
  refine ⟨hprev, hfore, ?_, ?_⟩
  · intro l1 l2 tm keys
    unfold preview_rows
    rw [List.filterMap_append, List.filterMap_append,
      List.filterMap_cons_none (hprev tm keys)]
  · intro txs l1 l2 ma hne
    unfold generate_forecast
    have h1 : (l1 ++ r :: l2).isEmpty = false := by
      cases l1 <;> simp
    have h2 : (l1 ++ l2).isEmpty = false := by
      simpa [List.isEmpty_iff] using hne
    rw [h1, h2]
    by_cases htx : txs.isEmpty = true
    · simp [htx]
    · rw [Bool.not_eq_true] at htx
      rw [htx]
      simp only [Bool.or_self, Bool.false_eq_true, if_false]
      cases hp : parseYm (maxMonth txs) with
      | none => rfl
      | some lm =>
        have hfm : ∀ m : String, (l1 ++ r :: l2).filterMap (forecastRowOfRule m)
            = (l1 ++ l2).filterMap (forecastRowOfRule m) := by
          intro m
          rw [List.filterMap_append, List.filterMap_append,
            List.filterMap_cons_none (hfore m)]
        simp only [hfm]

theorem inactive_rules_excluded_witness :
    (⟨"Netflix", "Expense", "Fun", 15, false⟩ : Rule).active = false
    ∧ ((∀ (tm : String) (keys : List (String × String × String)),
          previewRowOfRule tm keys ⟨"Netflix", "Expense", "Fun", 15, false⟩ = none)
      ∧ (∀ m : String, forecastRowOfRule m ⟨"Netflix", "Expense", "Fun", 15, false⟩ = none)
      ∧ (∀ (l1 l2 : List Rule) (tm : String) (keys : List (String × String × String)),
          preview_rows (l1 ++ ⟨"Netflix", "Expense", "Fun", 15, false⟩ :: l2) tm keys
            = preview_rows (l1 ++ l2) tm keys)
      ∧ (∀ (txs : List Tx) (l1 l2 : List Rule) (ma : Nat), l1 ++ l2 ≠ [] →
          generate_forecast txs (l1 ++ ⟨"Netflix", "Expense", "Fun", 15, false⟩ :: l2) ma
            = generate_forecast txs (l1 ++ l2) ma)) :=
  ⟨rfl, inactive_rules_excluded ⟨"Netflix", "Expense", "Fun", 15, false⟩ rfl⟩

/- ===== Transactions invariant (C8) ===== -/

/-- The spec's Transactions invariant: non-negative amount, enumerated type. -/
def txRecordOk (t : StoredTx) : Prop :=
  0 ≤ t.amount ∧ (t.ttype = "Income" ∨ t.ttype = "Expense")

/-- The corresponding well-formedness of a recurring rule's payload. -/
def ruleOk (r : Rule) : Prop :=
  0 ≤ r.amount ∧ (r.ttype = "Income" ∨ r.ttype = "Expense")

instance : DecidablePred txRecordOk := fun t => by
  unfold txRecordOk
  infer_instance

instance : DecidablePred ruleOk := fun r => by
  unfold ruleOk
  infer_instance

theorem preview_row_ok (rules : List Rule) (tm : String)
    (keys : List (String × String × String)) (hr : ∀ r ∈ rules, ruleOk r) :
    ∀ row ∈ preview_rows rules tm keys,
      0 ≤ row.amount ∧ (row.ttype = "Income" ∨ row.ttype = "Expense") := by
  intro row hrow
  rw [preview_rows, List.mem_filterMap] at hrow
  obtain ⟨r, hrm, hfr⟩ := hrow
  unfold previewRowOfRule at hfr
  by_cases ha : r.active
  · rw [if_pos ha] at hfr
    by_cases hk : (tm, r.name, r.ttype) ∈ keys
    · rw [if_pos hk] at hfr
      exact Option.noConfusion hfr
    · rw [if_neg hk] at hfr
      obtain ⟨h1, h2⟩ := hr r hrm
      rw [← Option.some.inj hfr]
      exact ⟨h1, h2⟩
  · rw [if_neg ha] at hfr
    exact Option.noConfusion hfr

theorem apply_preview_ok (rows : List PreviewRow) :
    ∀ (df out : List StoredTx), (∀ t ∈ df, txRecordOk t) →
      (∀ row ∈ rows, 0 ≤ row.amount ∧ (row.ttype = "Income" ∨ row.ttype = "Expense")) →
      apply_preview df rows = some out → ∀ t ∈ out, txRecordOk t := by
  induction rows with
  | nil =>
    intro df out hdf _ happ
    have : df = out := Option.some.inj happ
    exact this ▸ hdf
  | cons row rest ih =>
    intro df out hdf hrows happ
    unfold apply_preview at happ
    cases hp : parseDateYmd row.date with
    | none => rw [hp] at happ; exact absurd happ (Option.noConfusion)
    | some d =>
      rw [hp] at happ
      apply ih _ out _ (fun q hq => hrows q (by simp [hq])) happ
      intro t ht
      unfold add_transaction at ht
      rcases List.mem_append.mp ht with h | h
      · exact hdf t h
      · have : t = ⟨some d, row.ttype, row.name, row.category, row.amount⟩ := by
          simpa using h
        rw [this]
        exact ⟨(hrows row (by simp)).1, (hrows row (by simp)).2⟩

/-- C8: invariant on the Transactions collection. If every stored transaction
has a non-negative amount and an Income/Expense type, then both write paths
preserve this: `add_transaction` under the form preconditions (amount from a
`min_value=0` input, type from the two-value enumeration), and the recurring
apply step whenever every rule row carries a non-negative amount and an
Income/Expense type. -/
theorem transactions_invariant (df : List StoredTx) (hdf : ∀ t ∈ df, txRecordOk t) :
    (∀ (date : Ymd) (ty nm cat : String) (amt : Int),
        0 ≤ amt → (ty = "Income" ∨ ty = "Expense") →
        ∀ t ∈ add_transaction df date ty nm cat amt, txRecordOk t)
    ∧ (∀ (rules : List Rule) (tm : String) (keys : List (String × String × String))
        (out : List StoredTx), (∀ r ∈ rules, ruleOk r) →
        apply_preview df (preview_rows rules tm keys) = some out →
        ∀ t ∈ out, txRecordOk t) := by
  constructor
  · intro date ty nm cat amt hamt hty t ht
    unfold add_transaction at ht
    rcases List.mem_append.mp ht with h | h
    · exact hdf t h
    · have : t = ⟨some date, ty, nm, cat, amt⟩ := by simpa using h
      rw [this]
      exact ⟨hamt, hty⟩
  · intro rules tm keys out hrules happ
    exact apply_preview_ok (preview_rows rules tm keys) df out hdf
      (preview_row_ok rules tm keys hrules) happ

theorem transactions_invariant_witness :
    (∀ t ∈ ([⟨some ⟨2024, 6, 3⟩, "Expense", "Rent", "Housing", 1000⟩] : List StoredTx), txRecordOk t)
    ∧ ((∀ (date : Ymd) (ty nm cat : String) (amt : Int),
          0 ≤ amt → (ty = "Income" ∨ ty = "Expense") →
          ∀ t ∈ add_transaction [⟨some ⟨2024, 6, 3⟩, "Expense", "Rent", "Housing", 1000⟩] date ty nm cat amt, txRecordOk t)
      ∧ (∀ (rules : List Rule) (tm : String) (keys : List (String × String × String))
          (out : List StoredTx), (∀ r ∈ rules, ruleOk r) →
          apply_preview [⟨some ⟨2024, 6, 3⟩, "Expense", "Rent", "Housing", 1000⟩] (preview_rows rules tm keys) = some out →
          ∀ t ∈ out, txRecordOk t)) :=
  ⟨by decide, transactions_invariant [⟨some ⟨2024, 6, 3⟩, "Expense", "Rent", "Housing", 1000⟩] (by decide)⟩

theorem preview_rows_date (rules : List Rule) (tm : String)
    (keys : List (String × String × String)) :
    ∀ row ∈ preview_rows rules tm keys, row.date = tm ++ "-01" := by
  intro row hrow
  rw [preview_rows, List.mem_filterMap] at hrow
  obtain ⟨r, -, hfr⟩ := hrow
  unfold previewRowOfRule at hfr
  by_cases ha : r.active
  · rw [if_pos ha] at hfr
    by_cases hk : (tm, r.name, r.ttype) ∈ keys
    · rw [if_pos hk] at hfr
      exact Option.noConfusion hfr
    · rw [if_neg hk] at hfr
      rw [← Option.some.inj hfr]
  · rw [if_neg ha] at hfr
    exact Option.noConfusion hfr

theorem apply_preview_eq (p : Nat) (rows : List PreviewRow) :
    ∀ df : List StoredTx, (∀ row ∈ rows, row.date = fmtYm p ++ "-01") →
    apply_preview df rows
      = some (df ++ rows.map (fun row =>
          ⟨some ⟨p / 12, p % 12 + 1, 1⟩, row.ttype, row.name, row.category, row.amount⟩)) := by
  induction rows with
  | nil =>
    intro df h
    simp [apply_preview]
  | cons row rest ih =>
    intro df h
    unfold apply_preview
    rw [h row (by simp), parseDateYmd_fmtYm_first]
    dsimp only
    rw [ih _ (fun q hq => h q (by simp [hq]))]
    unfold add_transaction
    rw [List.append_assoc]
    rfl

theorem preview_countP (txs : List Tx) (p : Nat) (nm ty : String) (rules : List Rule)
    (hno : ¬∃ t ∈ txs, t.month = fmtYm p ∧ t.name = nm ∧ t.ttype = ty) :
    (preview_rows rules (fmtYm p) (get_existing_recurring_keys txs (fmtYm p))).countP
        (fun row => row.name == nm && row.ttype == ty)
      = rules.countP (fun r => r.active && r.name == nm && r.ttype == ty) := by
  induction rules with
  | nil => rfl
  | cons q qs ih =>
    rw [List.countP_cons]
    cases hfq : previewRowOfRule (fmtYm p) (get_existing_recurring_keys txs (fmtYm p)) q with
    | none =>
      rw [preview_rows, List.filterMap_cons_none hfq, ← preview_rows, ih]
      have hpq : (q.active && q.name == nm && q.ttype == ty) = false := by
        by_cases hact : q.active
        · unfold previewRowOfRule at hfq
          rw [if_pos hact] at hfq
          by_cases hk : (fmtYm p, q.name, q.ttype)
              ∈ get_existing_recurring_keys txs (fmtYm p)
          · obtain ⟨t, ht, h1, h2, h3⟩ := (mem_existing_keys_iff txs (fmtYm p) _ _).mp hk
            by_cases hmatch : q.name = nm ∧ q.ttype = ty
            · exact absurd ⟨t, ht, h1, hmatch.1 ▸ h2, hmatch.2 ▸ h3⟩ hno
            · rcases Decidable.not_and_iff_or_not.mp hmatch with hm | hm <;>
                simp [hm]
          · rw [if_neg hk] at hfq
            exact Option.noConfusion hfq
        · rw [Bool.not_eq_true] at hact
          simp [hact]
      rw [hpq]
      simp
    | some row =>
      have hrow : q.active = true
          ∧ row = ⟨fmtYm p ++ "-01", q.ttype, q.name, q.category, q.amount⟩ := by
        unfold previewRowOfRule at hfq
        by_cases hact : q.active
        · rw [if_pos hact] at hfq
          by_cases hk : (fmtYm p, q.name, q.ttype)
              ∈ get_existing_recurring_keys txs (fmtYm p)
          · rw [if_pos hk] at hfq
            exact Option.noConfusion hfq
          · rw [if_neg hk] at hfq
            exact ⟨hact, (Option.some.inj hfq).symm⟩
        · rw [if_neg hact] at hfq
          exact Option.noConfusion hfq
      rw [preview_rows, List.filterMap_cons_some hfq, List.countP_cons, ← preview_rows, ih]
      rw [hrow.2, hrow.1]
      simp

/-- C10: the dedup key set is computed once from the stored transactions and
never updated against the preview itself; two active rules sharing (Name,
Type) with no matching transaction in the target month therefore both appear
in the preview, and applying inserts one transaction per such rule - the
count of preview rows (and of newly inserted transactions) with a given
(Name, Type) equals the count of active rules with that (Name, Type), not
its cap at one. -/
theorem duplicate_rules_duplicated (txs : List Tx) (p : Nat) (nm ty : String)
    (rules : List Rule) (df : List StoredTx)
    (hno : ¬∃ t ∈ txs, t.month = fmtYm p ∧ t.name = nm ∧ t.ttype = ty) :
    ((preview_rows rules (fmtYm p) (get_existing_recurring_keys txs (fmtYm p))).countP
        (fun row => row.name == nm && row.ttype == ty)
      = rules.countP (fun r => r.active && r.name == nm && r.ttype == ty))
    ∧ ∃ out : List StoredTx,
        apply_preview df (preview_rows rules (fmtYm p) (get_existing_recurring_keys txs (fmtYm p)))
          = some out
        ∧ out.countP (fun t => t.name == nm && t.ttype == ty)
          = df.countP (fun t => t.name == nm && t.ttype == ty)
            + rules.countP (fun r => r.active && r.name == nm && r.ttype == ty) := by
  refine ⟨preview_countP txs p nm ty rules hno, ?_⟩
  refine ⟨_, apply_preview_eq p _ df (preview_rows_date rules (fmtYm p) _), ?_⟩
  rw [List.countP_append, List.countP_map]
  have : ((fun t : StoredTx => t.name == nm && t.ttype == ty) ∘ fun row : PreviewRow =>
      (⟨some ⟨p / 12, p % 12 + 1, 1⟩, row.ttype, row.name, row.category, row.amount⟩ : StoredTx))
      = fun row : PreviewRow => row.name == nm && row.ttype == ty := rfl
  rw [this, preview_countP txs p nm ty rules hno]

/-- Two active rules sharing Name "Gym" and Type "Expense". -/
def gymRule1 : Rule := ⟨"Gym", "Expense", "Health", 30, true⟩

/-- A second rule with the same (Name, Type) key as `gymRule1`. -/
def gymRule2 : Rule := ⟨"Gym", "Expense", "Fitness", 45, true⟩

theorem duplicate_rules_duplicated_witness :
    (¬∃ t ∈ ([] : List Tx), t.month = fmtYm 24293 ∧ t.name = "Gym" ∧ t.ttype = "Expense")
    ∧ (((preview_rows [gymRule1, gymRule2] (fmtYm 24293)
          (get_existing_recurring_keys [] (fmtYm 24293))).countP
            (fun row => row.name == "Gym" && row.ttype == "Expense")
        = ([gymRule1, gymRule2] : List Rule).countP
            (fun r => r.active && r.name == "Gym" && r.ttype == "Expense"))
      ∧ ∃ out : List StoredTx,
          apply_preview [] (preview_rows [gymRule1, gymRule2] (fmtYm 24293)
              (get_existing_recurring_keys [] (fmtYm 24293)))
            = some out
          ∧ out.countP (fun t => t.name == "Gym" && t.ttype == "Expense")
            = ([] : List StoredTx).countP (fun t => t.name == "Gym" && t.ttype == "Expense")
              + ([gymRule1, gymRule2] : List Rule).countP
                  (fun r => r.active && r.name == "Gym" && r.ttype == "Expense"))
    ∧ ([gymRule1, gymRule2] : List Rule).countP
        (fun r => r.active && r.name == "Gym" && r.ttype == "Expense") = 2
    ∧ apply_preview [] (preview_rows [gymRule1, gymRule2] (fmtYm 24293)
          (get_existing_recurring_keys [] (fmtYm 24293)))
        = some [⟨some ⟨2024, 6, 1⟩, "Expense", "Gym", "Health", 30⟩,
                ⟨some ⟨2024, 6, 1⟩, "Expense", "Gym", "Fitness", 45⟩] :=
  ⟨by decide,
    duplicate_rules_duplicated [] 24293 "Gym" "Expense" [gymRule1, gymRule2] [] (by decide),
    by decide, by decide⟩
